import Mathlib

/-!
# Shallow embedding of the ITC reconciliation script (src/main.py)

The script reconciles a GSTN invoice ledger against a BOOKS ledger:
it normalizes invoice numbers, filters records lacking mandatory fields,
performs a full outer join on (party id, normalized invoice key), flags tax
mismatches on matched rows, splits unmatched GSTN rows by a fiscal-year
cutoff date, and assembles four output tables.

This file embeds those operations as executable Lean definitions, translated
from the Python source, and proves the specification claims about them.
-/

namespace ITCMatch

/-- `re.sub("[a-zA-Z]", "", s)` from `clean_invoice_number`: scan the
characters left to right, delete every ASCII letter, keep everything else.
`Char.isAlpha` is exactly the ASCII ranges `A`–`Z`, `a`–`z`, matching the
regex character class `[a-zA-Z]`. -/
def reSubAlpha : List Char → List Char
  | [] => []
  | c :: cs => if c.isAlpha then reSubAlpha cs else c :: reSubAlpha cs

/-- `clean_invoice_number` from src/main.py lines 109-114: `None` when the
input is missing (`pd.isna`), otherwise the string with `[a-zA-Z]` removed. -/
def clean_invoice_number : Option String → Option String
  | none => none
  | some s => some ⟨reSubAlpha s.data⟩

/-- Spec-side predicate: an ASCII alphabetic character (`A`–`Z` or `a`–`z`). -/
def isAsciiAlpha (c : Char) : Bool :=
  ('A' ≤ c && c ≤ 'Z') || ('a' ≤ c && c ≤ 'z')

theorem isAlpha_eq_isAsciiAlpha (c : Char) : c.isAlpha = isAsciiAlpha c := by
  simp only [Char.isAlpha, Char.isUpper, Char.isLower, isAsciiAlpha]
  rfl

theorem reSubAlpha_eq_filter (l : List Char) :
    reSubAlpha l = l.filter (fun c => !(isAsciiAlpha c)) := by
  induction l with
  | nil => rfl
  | cons c cs ih =>
      by_cases h : c.isAlpha
      · simp [reSubAlpha, h, List.filter, isAlpha_eq_isAsciiAlpha c ▸ h, ih]
      · simp only [reSubAlpha, h, if_false, List.filter, ih]
        rw [← isAlpha_eq_isAsciiAlpha]
        simp [h]

/-- C8: the key normalizer maps a missing value to a missing key, and any
string to the same string with every ASCII alphabetic character removed and
all other characters preserved (a `filter`, hence in their original relative
order and positions). -/
theorem clean_invoice_number_spec :
    clean_invoice_number none = none ∧
    ∀ s : String, clean_invoice_number (some s) =
      some ⟨s.data.filter (fun c => !(isAsciiAlpha c))⟩ := by
  refine ⟨rfl, fun s => ?_⟩
  simp [clean_invoice_number, reSubAlpha_eq_filter]

/-- C9: key normalization is idempotent — normalizing an already-normalized
key returns it unchanged. -/
theorem clean_invoice_number_idempotent (s : Option String) :
    clean_invoice_number (clean_invoice_number s) = clean_invoice_number s := by
  cases s with
  | none => rfl
  | some str =>
      simp only [clean_invoice_number, reSubAlpha_eq_filter, List.filter_filter,
        Bool.and_self]

/-!
## Record-level model of the pipeline

One row of either input sheet. Mandatory identifying columns (`GSTN`,
`Invoice Number`) are `Option String` because the sheet may have missing
cells (`NaN`); `Invoice Date` and `gstr1_filing_date` are encoded as
`yyyymmdd` integers, on which `<` agrees with `pd.Timestamp` comparison;
the five tax amounts are optional rationals, missing meaning `NaN`.
-/

structure SrcRow where
  gstn : Option String
  invoiceNumber : Option String
  invoiceDate : Option Int := none
  taxable : Option ℚ := none
  cgst : Option ℚ := none
  sgst : Option ℚ := none
  igst : Option ℚ := none
  cess : Option ℚ := none
  filingDate : Option Int := none
deriving DecidableEq, Repr

/-- A record that survived the filtering step of lines 118-136: the original
row plus the derived columns.  `party` and `invOriginal` record the values of
the `GSTN` and `Invoice Number` cells, known present after the first
`dropna`; `invClean` is `InvoiceNumber_clean` (possibly the empty string). -/
structure CleanRow where
  src : SrcRow
  invClean : String
  party : String
  invOriginal : String
deriving DecidableEq, Repr

/-- Lines 118-136: `dropna(subset=["GSTN", "Invoice Number"])`, then assign
`InvoiceNumber_clean` and `InvoiceNumber_original`, then
`dropna(subset=["InvoiceNumber_clean"])`.  The final `dropna` removes only
`None` keys (never produced here since the invoice number is present); an
empty-string key is *not* `NaN` and is kept. -/
def filterSource (rows : List SrcRow) : List CleanRow :=
  rows.filterMap fun r =>
    match r.gstn, r.invoiceNumber with
    | some p, some inv =>
        match clean_invoice_number (some inv) with
        | some k => some ⟨r, k, p, inv⟩
        | none => none
    | _, _ => none

/-- The composite join key of the merge at lines 139-146:
`on=["GSTN", "InvoiceNumber_clean"]`. -/
def keyMatch (a b : CleanRow) : Bool :=
  a.party == b.party && a.invClean == b.invClean

/-- A row of the merged frame, tagged by the `_merge` indicator column. -/
inductive MRow
  | both (g b : CleanRow)
  | leftOnly (g : CleanRow)
  | rightOnly (b : CleanRow)
deriving DecidableEq, Repr

/-- `pd.merge(gstn, books, on=["GSTN", "InvoiceNumber_clean"], how="outer",
indicator=True)`: every key-matching combination of a left and a right row
(standard outer-join fan-out), plus each left row with no right match, plus
each right row with no left match.  Only the multiset of rows matters to the
claims; pandas interleaves the categories in key order. -/
def outerMerge (g b : List CleanRow) : List MRow :=
  (g.flatMap fun a => (b.filter fun x => keyMatch a x).map (MRow.both a))
    ++ ((g.filter fun a => !(b.any fun x => keyMatch a x)).map MRow.leftOnly)
    ++ ((b.filter fun x => !(g.any fun a => keyMatch a x)).map MRow.rightOnly)

/-- `merged[merged["_merge"] == "both"]`, as (gstn-side, books-side) pairs. -/
def matchedPairs (m : List MRow) : List (CleanRow × CleanRow) :=
  m.filterMap fun r =>
    match r with
    | .both a x => some (a, x)
    | _ => none

/-- `merged[merged["_merge"] == "left_only"]`. -/
def leftOnlyRows (m : List MRow) : List CleanRow :=
  m.filterMap fun r =>
    match r with
    | .leftOnly a => some a
    | _ => none

/-- `merged[merged["_merge"] == "right_only"]`. -/
def rightOnlyRows (m : List MRow) : List CleanRow :=
  m.filterMap fun r =>
    match r with
    | .rightOnly x => some x
    | _ => none

/-- The diagnostic printed by `categorize_gstn` for a missing invoice date:
`f"Missing Invoice Date: {row['GSTN']}, {row['InvoiceNumber_original_gstn']}"`. -/
structure Diagnostic where
  party : String
  invOriginal : String
deriving DecidableEq, Repr

/-- The branch condition of `categorize_gstn`: date present and strictly
before the cutoff. -/
def isPrior (r : CleanRow) (cutoff : Int) : Bool :=
  match r.src.invoiceDate with
  | some d => decide (d < cutoff)
  | none => false

/-- `categorize_gstn` from src/main.py lines 185-204: iterate over the
unmatched GSTN rows; a row dated strictly before the cutoff goes to
`prev_fy`, a row dated on/after the cutoff goes to `not_in_books`, and a row
with no date goes to `not_in_books` with a printed diagnostic.  Returns
`(prev_fy, not_in_books, diagnostics)`. -/
def categorize_gstn (rows : List CleanRow) (cutoff : Int) :
    List CleanRow × List CleanRow × List Diagnostic :=
  match rows with
  | [] => ([], [], [])
  | r :: rs =>
      let rest := categorize_gstn rs cutoff
      match r.src.invoiceDate with
      | some d =>
          if d < cutoff then (r :: rest.1, rest.2.1, rest.2.2)
          else (rest.1, r :: rest.2.1, rest.2.2)
      | none => (rest.1, r :: rest.2.1, ⟨r.party, r.invOriginal⟩ :: rest.2.2)

/-- The default cutoff `"2024-04-01"` of `categorize_gstn`, encoded `yyyymmdd`. -/
def cutoffDefault : Int := 20240401

/-- The four output buckets of the `result` dict (lines 207-235), at the
granularity of rows, plus the missing-date diagnostics. -/
structure Buckets where
  matched : List (CleanRow × CleanRow)
  prevFy : List CleanRow
  notInBooks : List CleanRow
  nextFy : List CleanRow
  diags : List Diagnostic
deriving Repr

/-- The whole row pipeline: filter both sources, outer-merge, put the
`both` rows in `MATCHED`, the `right_only` rows in `NEXT_FY_ITC`, and split
the `left_only` rows into `PREV_FY_ITC` / `NOTINBOOKS` by the cutoff.
(`add_mismatch_flag` only adds a column to `matched_df`, so at row
granularity `MATCHED` is exactly the `both` rows.) -/
def runPipeline (graw braw : List SrcRow) (cutoff : Int) : Buckets :=
  let g := filterSource graw
  let b := filterSource braw
  let m := outerMerge g b
  let cat := categorize_gstn (leftOnlyRows m) cutoff
  ⟨matchedPairs m, cat.1, cat.2.1, rightOnlyRows m, cat.2.2⟩

/-- A record sits in the `MATCHED` bucket when it is one side of some
matched pair. -/
def InMatched (B : Buckets) (r : CleanRow) : Prop :=
  ∃ p ∈ B.matched, p.1 = r ∨ p.2 = r

/-- The record `r` appears in exactly one of the four output buckets. -/
def ExactlyOneBucket (B : Buckets) (r : CleanRow) : Prop :=
  (InMatched B r ∨ r ∈ B.prevFy ∨ r ∈ B.notInBooks ∨ r ∈ B.nextFy) ∧
  ¬(InMatched B r ∧ r ∈ B.prevFy) ∧
  ¬(InMatched B r ∧ r ∈ B.notInBooks) ∧
  ¬(InMatched B r ∧ r ∈ B.nextFy) ∧
  ¬(r ∈ B.prevFy ∧ r ∈ B.notInBooks) ∧
  ¬(r ∈ B.prevFy ∧ r ∈ B.nextFy) ∧
  ¬(r ∈ B.notInBooks ∧ r ∈ B.nextFy)

/-! ## Lemmas about the merge and the period classifier -/

theorem keyMatch_refl (a : CleanRow) : keyMatch a a = true := by
  simp [keyMatch]

theorem filterMap_map_none {α β γ : Type} (f : α → β) (ex : β → Option γ)
    (l : List α) (h : ∀ a, ex (f a) = none) : (l.map f).filterMap ex = [] := by
  induction l with
  | nil => rfl
  | cons x xs ih => simp [List.filterMap_cons, h, ih]

theorem filterMap_map_some {α β γ : Type} (f : α → β) (ex : β → Option γ)
    (h' : α → γ) (l : List α) (h : ∀ a, ex (f a) = some (h' a)) :
    (l.map f).filterMap ex = l.map h' := by
  induction l with
  | nil => rfl
  | cons x xs ih => simp [List.filterMap_cons, h, ih]

theorem filterMap_flatMap_none {α β γ : Type} (f : α → List β) (ex : β → Option γ)
    (l : List α) (h : ∀ a, (f a).filterMap ex = []) : (l.flatMap f).filterMap ex = [] := by
  induction l with
  | nil => rfl
  | cons x xs ih => simp [List.flatMap_cons, List.filterMap_append, h, ih]

theorem matchedPairs_outerMerge (g b : List CleanRow) :
    matchedPairs (outerMerge g b) =
      g.flatMap fun a => (b.filter fun x => keyMatch a x).map fun x => (a, x) := by
  unfold matchedPairs outerMerge
  rw [List.filterMap_append, List.filterMap_append]
  rw [filterMap_map_none MRow.leftOnly _ _ (fun a => rfl)]
  rw [filterMap_map_none MRow.rightOnly _ _ (fun a => rfl)]
  rw [List.filterMap_flatMap]
  rw [List.append_nil, List.append_nil]
  congr 1
  funext a
  exact filterMap_map_some (MRow.both a) _ (fun x => (a, x)) _ (fun x => rfl)

theorem leftOnlyRows_outerMerge (g b : List CleanRow) :
    leftOnlyRows (outerMerge g b) =
      g.filter fun a => !(b.any fun x => keyMatch a x) := by
  unfold leftOnlyRows outerMerge
  rw [List.filterMap_append, List.filterMap_append]
  rw [filterMap_flatMap_none _ _ _
    (fun a => filterMap_map_none (MRow.both a) _ _ (fun x => rfl))]
  rw [filterMap_map_none MRow.rightOnly _ _ (fun a => rfl)]
  rw [filterMap_map_some MRow.leftOnly _ id _ (fun a => rfl)]
  simp

theorem rightOnlyRows_outerMerge (g b : List CleanRow) :
    rightOnlyRows (outerMerge g b) =
      b.filter fun x => !(g.any fun a => keyMatch a x) := by
  unfold rightOnlyRows outerMerge
  rw [List.filterMap_append, List.filterMap_append]
  rw [filterMap_flatMap_none _ _ _
    (fun a => filterMap_map_none (MRow.both a) _ _ (fun x => rfl))]
  rw [filterMap_map_none MRow.leftOnly _ _ (fun a => rfl)]
  rw [filterMap_map_some MRow.rightOnly _ id _ (fun a => rfl)]
  simp

theorem mem_matchedPairs (g b : List CleanRow) (p : CleanRow × CleanRow) :
    p ∈ matchedPairs (outerMerge g b) ↔
      p.1 ∈ g ∧ p.2 ∈ b ∧ keyMatch p.1 p.2 = true := by
  rw [matchedPairs_outerMerge]
  simp only [List.mem_flatMap, List.mem_map, List.mem_filter]
  constructor
  · rintro ⟨a, ha, x, ⟨hx, hk⟩, rfl⟩
    exact ⟨ha, hx, hk⟩
  · rintro ⟨h1, h2, h3⟩
    exact ⟨p.1, h1, p.2, ⟨h2, h3⟩, rfl⟩

theorem mem_leftOnlyRows (g b : List CleanRow) (a : CleanRow) :
    a ∈ leftOnlyRows (outerMerge g b) ↔
      a ∈ g ∧ ∀ x ∈ b, keyMatch a x = false := by
  rw [leftOnlyRows_outerMerge, List.mem_filter]
  simp [List.any_eq_true]

theorem mem_rightOnlyRows (g b : List CleanRow) (x : CleanRow) :
    x ∈ rightOnlyRows (outerMerge g b) ↔
      x ∈ b ∧ ∀ a ∈ g, keyMatch a x = false := by
  rw [rightOnlyRows_outerMerge, List.mem_filter]
  simp [List.any_eq_true]

theorem categorize_fst (rows : List CleanRow) (cutoff : Int) :
    (categorize_gstn rows cutoff).1 = rows.filter fun r => isPrior r cutoff := by
  induction rows with
  | nil => rfl
  | cons r rs ih =>
      simp only [categorize_gstn]
      cases hd : r.src.invoiceDate with
      | none => simp [List.filter, isPrior, hd, ih]
      | some d =>
          by_cases h : d < cutoff <;> simp [List.filter, isPrior, hd, h, ih]

theorem categorize_snd (rows : List CleanRow) (cutoff : Int) :
    (categorize_gstn rows cutoff).2.1 = rows.filter fun r => !(isPrior r cutoff) := by
  induction rows with
  | nil => rfl
  | cons r rs ih =>
      simp only [categorize_gstn]
      cases hd : r.src.invoiceDate with
      | none => simp [List.filter, isPrior, hd, ih]
      | some d =>
          by_cases h : d < cutoff <;> simp [List.filter, isPrior, hd, h, ih]

theorem categorize_diags (rows : List CleanRow) (cutoff : Int) :
    (categorize_gstn rows cutoff).2.2 = rows.filterMap fun r =>
      match r.src.invoiceDate with
      | none => some ⟨r.party, r.invOriginal⟩
      | some _ => none := by
  induction rows with
  | nil => rfl
  | cons r rs ih =>
      simp only [categorize_gstn]
      cases hd : r.src.invoiceDate with
      | none => simp [List.filterMap, hd, ih]
      | some d =>
          by_cases h : d < cutoff <;> simp [List.filterMap, hd, h, ih]

/-! ## Partition of the filtered records into the four buckets -/

theorem inMatched_left_iff (graw braw : List SrcRow) (cutoff : Int) (a : CleanRow)
    (ha : a ∈ filterSource graw) :
    InMatched (runPipeline graw braw cutoff) a ↔
      ∃ x ∈ filterSource braw, keyMatch a x = true := by
  constructor
  · rintro ⟨p, hp, h⟩
    rw [show (runPipeline graw braw cutoff).matched =
      matchedPairs (outerMerge (filterSource graw) (filterSource braw)) from rfl] at hp
    rw [mem_matchedPairs] at hp
    rcases h with h | h
    · exact ⟨p.2, hp.2.1, h ▸ hp.2.2⟩
    · exact ⟨a, h ▸ hp.2.1, keyMatch_refl a⟩
  · rintro ⟨x, hx, hk⟩
    refine ⟨(a, x), ?_, Or.inl rfl⟩
    rw [show (runPipeline graw braw cutoff).matched =
      matchedPairs (outerMerge (filterSource graw) (filterSource braw)) from rfl]
    exact (mem_matchedPairs _ _ (a, x)).2 ⟨ha, hx, hk⟩

theorem inMatched_right_iff (graw braw : List SrcRow) (cutoff : Int) (x : CleanRow)
    (hx : x ∈ filterSource braw) :
    InMatched (runPipeline graw braw cutoff) x ↔
      ∃ a ∈ filterSource graw, keyMatch a x = true := by
  constructor
  · rintro ⟨p, hp, h⟩
    rw [show (runPipeline graw braw cutoff).matched =
      matchedPairs (outerMerge (filterSource graw) (filterSource braw)) from rfl] at hp
    rw [mem_matchedPairs] at hp
    rcases h with h | h
    · exact ⟨x, h ▸ hp.1, keyMatch_refl x⟩
    · exact ⟨p.1, hp.1, h ▸ hp.2.2⟩
  · rintro ⟨a, ha, hk⟩
    refine ⟨(a, x), ?_, Or.inr rfl⟩
    rw [show (runPipeline graw braw cutoff).matched =
      matchedPairs (outerMerge (filterSource graw) (filterSource braw)) from rfl]
    exact (mem_matchedPairs _ _ (a, x)).2 ⟨ha, hx, hk⟩

theorem mem_prevFy_iff (graw braw : List SrcRow) (cutoff : Int) (r : CleanRow) :
    r ∈ (runPipeline graw braw cutoff).prevFy ↔
      r ∈ leftOnlyRows (outerMerge (filterSource graw) (filterSource braw)) ∧
        isPrior r cutoff = true := by
  rw [show (runPipeline graw braw cutoff).prevFy =
    (categorize_gstn (leftOnlyRows (outerMerge (filterSource graw) (filterSource braw)))
      cutoff).1 from rfl]
  rw [categorize_fst, List.mem_filter]

theorem mem_notInBooks_iff (graw braw : List SrcRow) (cutoff : Int) (r : CleanRow) :
    r ∈ (runPipeline graw braw cutoff).notInBooks ↔
      r ∈ leftOnlyRows (outerMerge (filterSource graw) (filterSource braw)) ∧
        isPrior r cutoff = false := by
  rw [show (runPipeline graw braw cutoff).notInBooks =
    (categorize_gstn (leftOnlyRows (outerMerge (filterSource graw) (filterSource braw)))
      cutoff).2.1 from rfl]
  rw [categorize_snd, List.mem_filter]
  simp

theorem mem_nextFy_iff (graw braw : List SrcRow) (cutoff : Int) (r : CleanRow) :
    r ∈ (runPipeline graw braw cutoff).nextFy ↔
      r ∈ filterSource braw ∧
        ∀ a ∈ filterSource graw, keyMatch a r = false := by
  rw [show (runPipeline graw braw cutoff).nextFy =
    rightOnlyRows (outerMerge (filterSource graw) (filterSource braw)) from rfl]
  exact mem_rightOnlyRows _ _ r

/-- Shared partition argument for a record of the filtered GSTN set. -/
theorem bucketPartitionLeft (graw braw : List SrcRow) (cutoff : Int) (a : CleanRow)
    (ha : a ∈ filterSource graw) :
    ExactlyOneBucket (runPipeline graw braw cutoff) a := by
  have hnext : a ∉ (runPipeline graw braw cutoff).nextFy := by
    rw [mem_nextFy_iff]
    rintro ⟨-, hall⟩
    have := hall a ha
    rw [keyMatch_refl] at this
    exact Bool.true_eq_false.mp this
  by_cases H : ∃ x ∈ filterSource braw, keyMatch a x = true
  · have hm : InMatched (runPipeline graw braw cutoff) a :=
      (inMatched_left_iff graw braw cutoff a ha).2 H
    have hleft : a ∉ leftOnlyRows (outerMerge (filterSource graw) (filterSource braw)) := by
      rw [mem_leftOnlyRows]
      rintro ⟨-, hall⟩
      rcases H with ⟨x, hx, hk⟩
      rw [hall x hx] at hk
      exact Bool.false_ne_true hk
    have hprev : a ∉ (runPipeline graw braw cutoff).prevFy := by
      rw [mem_prevFy_iff]; rintro ⟨h, -⟩; exact hleft h
    have hnib : a ∉ (runPipeline graw braw cutoff).notInBooks := by
      rw [mem_notInBooks_iff]; rintro ⟨h, -⟩; exact hleft h
    exact ⟨Or.inl hm, fun h => hprev h.2, fun h => hnib h.2, fun h => hnext h.2,
      fun h => hprev h.1, fun h => hprev h.1, fun h => hnib h.1⟩
  · have hm : ¬ InMatched (runPipeline graw braw cutoff) a := fun h =>
      H ((inMatched_left_iff graw braw cutoff a ha).1 h)
    have hleft : a ∈ leftOnlyRows (outerMerge (filterSource graw) (filterSource braw)) := by
      rw [mem_leftOnlyRows]
      refine ⟨ha, fun x hx => ?_⟩
      by_contra hne
      exact H ⟨x, hx, by revert hne; cases keyMatch a x <;> simp⟩
    by_cases hp : isPrior a cutoff = true
    · have hprev : a ∈ (runPipeline graw braw cutoff).prevFy :=
        (mem_prevFy_iff graw braw cutoff a).2 ⟨hleft, hp⟩
      have hnib : a ∉ (runPipeline graw braw cutoff).notInBooks := by
        rw [mem_notInBooks_iff]
        rintro ⟨-, h⟩
        rw [hp] at h
        exact Bool.true_eq_false.mp h
      exact ⟨Or.inr (Or.inl hprev), fun h => hm h.1, fun h => hm h.1, fun h => hm h.1,
        fun h => hnib h.2, fun h => hnext h.2, fun h => hnib h.1⟩
    · have hp' : isPrior a cutoff = false := by revert hp; cases isPrior a cutoff <;> simp
      have hnib : a ∈ (runPipeline graw braw cutoff).notInBooks :=
        (mem_notInBooks_iff graw braw cutoff a).2 ⟨hleft, hp'⟩
      have hprev : a ∉ (runPipeline graw braw cutoff).prevFy := by
        rw [mem_prevFy_iff]
        rintro ⟨-, h⟩
        rw [hp'] at h
        exact Bool.false_ne_true h
      exact ⟨Or.inr (Or.inr (Or.inl hnib)), fun h => hm h.1, fun h => hm h.1,
        fun h => hm h.1, fun h => hprev h.1, fun h => hprev h.1, fun h => hnext h.2⟩

/-- Shared partition argument for a record of the filtered BOOKS set. -/
theorem bucketPartitionRight (graw braw : List SrcRow) (cutoff : Int) (x : CleanRow)
    (hx : x ∈ filterSource braw) :
    ExactlyOneBucket (runPipeline graw braw cutoff) x := by
  have hleft : x ∉ leftOnlyRows (outerMerge (filterSource graw) (filterSource braw)) := by
    rw [mem_leftOnlyRows]
    rintro ⟨-, hall⟩
    have := hall x hx
    rw [keyMatch_refl] at this
    exact Bool.true_eq_false.mp this
  have hprev : x ∉ (runPipeline graw braw cutoff).prevFy := by
    rw [mem_prevFy_iff]; rintro ⟨h, -⟩; exact hleft h
  have hnib : x ∉ (runPipeline graw braw cutoff).notInBooks := by
    rw [mem_notInBooks_iff]; rintro ⟨h, -⟩; exact hleft h
  by_cases H : ∃ a ∈ filterSource graw, keyMatch a x = true
  · have hm : InMatched (runPipeline graw braw cutoff) x :=
      (inMatched_right_iff graw braw cutoff x hx).2 H
    have hnext : x ∉ (runPipeline graw braw cutoff).nextFy := by
      rw [mem_nextFy_iff]
      rintro ⟨-, hall⟩
      rcases H with ⟨a, ha, hk⟩
      rw [hall a ha] at hk
      exact Bool.false_ne_true hk
    exact ⟨Or.inl hm, fun h => hprev h.2, fun h => hnib h.2, fun h => hnext h.2,
      fun h => hprev h.1, fun h => hprev h.1, fun h => hnib h.1⟩
  · have hm : ¬ InMatched (runPipeline graw braw cutoff) x := fun h =>
      H ((inMatched_right_iff graw braw cutoff x hx).1 h)
    have hnext : x ∈ (runPipeline graw braw cutoff).nextFy := by
      rw [mem_nextFy_iff]
      refine ⟨hx, fun a ha => ?_⟩
      by_contra hne
      exact H ⟨a, ha, by revert hne; cases keyMatch a x <;> simp⟩
    exact ⟨Or.inr (Or.inr (Or.inr hnext)), fun h => hm h.1, fun h => hm h.1,
      fun h => hm h.1, fun h => hprev h.1, fun h => hprev h.1, fun h => hnib h.1⟩

/-- C3: every record that survives filtering — on either side — appears in
exactly one of the four output buckets (MATCHED as one side of a pair,
PREV_FY_ITC, NOTINBOOKS, NEXT_FY_ITC): none is lost, none is duplicated
across buckets. -/
theorem bucket_partition_complete (graw braw : List SrcRow) (cutoff : Int) :
    (∀ a ∈ filterSource graw, ExactlyOneBucket (runPipeline graw braw cutoff) a) ∧
    (∀ x ∈ filterSource braw, ExactlyOneBucket (runPipeline graw braw cutoff) x) :=
  ⟨fun a ha => bucketPartitionLeft graw braw cutoff a ha,
   fun x hx => bucketPartitionRight graw braw cutoff x hx⟩

/-! ## Period classifier claims -/

/-- C5: an unmatched GSTN record with a present invoice date goes to
PREV_FY_ITC iff the date is strictly earlier than the cutoff, and to
NOTINBOOKS iff the date is on or after the cutoff — so a record dated
exactly at the cutoff lands in NOTINBOOKS, not PREV_FY_ITC. -/
theorem period_cutoff_boundary (rows : List CleanRow) (cutoff : Int) (r : CleanRow)
    (d : Int) (hm : r ∈ rows) (hd : r.src.invoiceDate = some d) :
    (d < cutoff →
      r ∈ (categorize_gstn rows cutoff).1 ∧ r ∉ (categorize_gstn rows cutoff).2.1) ∧
    (cutoff ≤ d →
      r ∈ (categorize_gstn rows cutoff).2.1 ∧ r ∉ (categorize_gstn rows cutoff).1) := by
  constructor
  · intro h
    have hp : isPrior r cutoff = true := by simp [isPrior, hd, h]
    rw [categorize_fst, categorize_snd, List.mem_filter, List.mem_filter]
    refine ⟨⟨hm, by simp [hp]⟩, ?_⟩
    rintro ⟨-, habs⟩
    rw [hp] at habs
    simp at habs
  · intro h
    have hnp : isPrior r cutoff = false := by
      simp only [isPrior, hd, decide_eq_false_iff_not]
      omega
    rw [categorize_fst, categorize_snd, List.mem_filter, List.mem_filter]
    refine ⟨⟨hm, by simp [hnp]⟩, ?_⟩
    rintro ⟨-, habs⟩
    rw [hnp] at habs
    exact Bool.false_ne_true habs

/-- A sample unmatched GSTN record dated exactly at the default cutoff. -/
def atCutoffRow : CleanRow :=
  ⟨{ gstn := some "27A", invoiceNumber := some "INV7", invoiceDate := some 20240401 },
    "7", "27A", "INV7"⟩

/-- Witness for C5 at the boundary: a record dated exactly `2024-04-01`
(the cutoff) is classified NOTINBOOKS, not PREV_FY_ITC. -/
theorem period_cutoff_boundary_witness :
    atCutoffRow ∈ (categorize_gstn [atCutoffRow] cutoffDefault).2.1 ∧
    atCutoffRow ∉ (categorize_gstn [atCutoffRow] cutoffDefault).1 :=
  (period_cutoff_boundary [atCutoffRow] cutoffDefault atCutoffRow 20240401
    (by decide) rfl).2 (by decide)

/-- C7: an unmatched GSTN record with no invoice date is assigned to
NOTINBOOKS — never dropped, never placed in PREV_FY_ITC — and a diagnostic
carrying its party id and raw invoice number is emitted. -/
theorem missing_date_pending_diagnostic (rows : List CleanRow) (cutoff : Int)
    (r : CleanRow) (hm : r ∈ rows) (hd : r.src.invoiceDate = none) :
    r ∈ (categorize_gstn rows cutoff).2.1 ∧
    r ∉ (categorize_gstn rows cutoff).1 ∧
    (⟨r.party, r.invOriginal⟩ : Diagnostic) ∈ (categorize_gstn rows cutoff).2.2 := by
  have hnp : isPrior r cutoff = false := by simp [isPrior, hd]
  refine ⟨?_, ?_, ?_⟩
  · rw [categorize_snd, List.mem_filter]
    exact ⟨hm, by simp [hnp]⟩
  · rw [categorize_fst, List.mem_filter]
    rintro ⟨-, h⟩
    rw [hnp] at h
    exact Bool.false_ne_true h
  · rw [categorize_diags, List.mem_filterMap]
    exact ⟨r, hm, by simp [hd]⟩

/-- A sample unmatched GSTN record with a missing invoice date. -/
def undatedRow : CleanRow :=
  ⟨{ gstn := some "29B", invoiceNumber := some "INV9", invoiceDate := none },
    "9", "29B", "INV9"⟩

/-- Witness for C7: the undated record lands in NOTINBOOKS with its
diagnostic recorded. -/
theorem missing_date_pending_diagnostic_witness :
    undatedRow ∈ (categorize_gstn [undatedRow] cutoffDefault).2.1 ∧
    undatedRow ∉ (categorize_gstn [undatedRow] cutoffDefault).1 ∧
    (⟨"29B", "INV9"⟩ : Diagnostic) ∈ (categorize_gstn [undatedRow] cutoffDefault).2.2 :=
  missing_date_pending_diagnostic [undatedRow] cutoffDefault undatedRow (by decide) rfl

/-! ## Cartesian fan-out of the outer join (C6) -/

theorem count_map_pair (l : List CleanRow) (a x : CleanRow) :
    (l.map fun y => (a, y)).count (a, x) = l.count x := by
  induction l with
  | nil => rfl
  | cons y ys ih =>
      simp only [List.map_cons, List.count_cons, ih, beq_iff_eq, Prod.mk.injEq]
      simp

theorem count_pair_hit (bs : List CleanRow) (a x : CleanRow) (hk : keyMatch a x = true) :
    ((bs.filter fun y => keyMatch a y).map fun y => (a, y)).count (a, x) = bs.count x := by
  rw [count_map_pair]
  exact List.count_filter hk

theorem count_pair_miss (bs : List CleanRow) (a' a x : CleanRow) (hne : a' ≠ a) :
    ((bs.filter fun y => keyMatch a' y).map fun y => (a', y)).count (a, x) = 0 := by
  rw [List.count_eq_zero]
  intro hmem
  rcases List.mem_map.1 hmem with ⟨y, -, hy⟩
  injection hy with h1 h2
  exact hne h1

theorem matched_count_product (g bs : List CleanRow) (a x : CleanRow)
    (hk : keyMatch a x = true) :
    (g.flatMap fun a' => (bs.filter fun y => keyMatch a' y).map fun y => (a', y)).count
        (a, x) = g.count a * bs.count x := by
  induction g with
  | nil => simp
  | cons a' g' ih =>
      rw [List.flatMap_cons, List.count_append, ih]
      by_cases h : a' = a
      · subst h
        rw [count_pair_hit bs a' x hk, List.count_cons_self, Nat.add_mul, Nat.one_mul,
          Nat.add_comm]
      · rw [count_pair_miss bs a' a x h, List.count_cons_of_ne (fun hax => h hax.symm),
          Nat.zero_add]

/-- C6: when several records share a composite key, the matcher pairs every
combination — the pair (a, x) of key-matching records is present, and it
occurs exactly (multiplicity of a in GSTN) × (multiplicity of x in BOOKS)
times, the standard outer-join Cartesian fan-out, with no collapsing of
duplicates. -/
theorem merge_cartesian_fanout (g bs : List CleanRow) (a x : CleanRow)
    (ha : a ∈ g) (hx : x ∈ bs) (hk : keyMatch a x = true) :
    (a, x) ∈ matchedPairs (outerMerge g bs) ∧
    (matchedPairs (outerMerge g bs)).count (a, x) = g.count a * bs.count x := by
  refine ⟨(mem_matchedPairs g bs (a, x)).2 ⟨ha, hx, hk⟩, ?_⟩
  rw [matchedPairs_outerMerge]
  exact matched_count_product g bs a x hk

/-- Cleaned GSTN-side sample record with key ("27A", "001"). -/
def gDupRow : CleanRow :=
  ⟨{ gstn := some "27A", invoiceNumber := some "INV001A", invoiceDate := some 20240510 },
    "001", "27A", "INV001A"⟩

/-- Cleaned BOOKS-side sample record with the same key ("27A", "001"). -/
def bDupRow : CleanRow :=
  ⟨{ gstn := some "27A", invoiceNumber := some "inv001b", invoiceDate := some 20240510 },
    "001", "27A", "inv001b"⟩

/-- Witness for C6: with the GSTN row duplicated, both copies pair with the
single BOOKS row — the pair occurs 2 × 1 times. -/
theorem merge_cartesian_fanout_witness :
    (gDupRow, bDupRow) ∈ matchedPairs (outerMerge [gDupRow, gDupRow] [bDupRow]) ∧
    (matchedPairs (outerMerge [gDupRow, gDupRow] [bDupRow])).count (gDupRow, bDupRow) =
      [gDupRow, gDupRow].count gDupRow * [bDupRow].count bDupRow :=
  merge_cartesian_fanout [gDupRow, gDupRow] [bDupRow] gDupRow bDupRow
    (by decide) (by decide) (by decide)

/-- Raw GSTN sample row; its invoice number cleans to "001". -/
def gRawEx : SrcRow :=
  { gstn := some "27A", invoiceNumber := some "INV001A", invoiceDate := some 20240510 }

/-- Raw BOOKS sample row; its invoice number also cleans to "001". -/
def bRawEx : SrcRow :=
  { gstn := some "27A", invoiceNumber := some "inv001b", invoiceDate := some 20240510 }

/-- Witness for C3: the filtered GSTN record of the sample pair sits in
exactly one output bucket. -/
theorem bucket_partition_complete_witness :
    ExactlyOneBucket (runPipeline [gRawEx] [bRawEx] cutoffDefault)
      ⟨gRawEx, "001", "27A", "INV001A"⟩ :=
  (bucket_partition_complete [gRawEx] [bRawEx] cutoffDefault).1
    ⟨gRawEx, "001", "27A", "INV001A"⟩ (by decide)

/-! ## Purely alphabetic invoice numbers (C1)

`clean_invoice_number` maps a purely alphabetic invoice number to the empty
string `""`.  The script then runs `dropna(subset=["InvoiceNumber_clean"])` —
but `""` is not `NaN`, so the record is *kept*, joins on the key
`(party, "")`, and lands in an output bucket like any other record. -/

/-- A GSTN row whose invoice number "ABC" is purely alphabetic. -/
def alphaRawRow : SrcRow :=
  { gstn := some "27A", invoiceNumber := some "ABC", invoiceDate := some 20240510 }

/-- The cleaned form of `alphaRawRow`: its normalized key is the empty string. -/
def alphaCleanRow : CleanRow := ⟨alphaRawRow, "", "27A", "ABC"⟩

/-- Counterexample to C1 as stated: the record with purely alphabetic
invoice number "ABC" is *not* excluded — run on it alone (with an empty
BOOKS side and the default cutoff) it appears in the NOTINBOOKS bucket. -/
theorem alpha_invoice_in_bucket_cex :
    alphaCleanRow ∈ (runPipeline [alphaRawRow] [] cutoffDefault).notInBooks := by
  decide

/-- C1 (amended): a record whose invoice number is purely alphabetic gets
the empty string as its normalized key and is NOT excluded: it survives
filtering (the `dropna` removes only null keys, and the empty string is not
null), participates in matching on the key (party, ""), and appears in
exactly one output bucket. -/
theorem alpha_invoice_not_excluded (graw braw : List SrcRow) (cutoff : Int)
    (r : SrcRow) (p s : String) (hr : r ∈ graw) (hp : r.gstn = some p)
    (hs : r.invoiceNumber = some s)
    (halpha : ∀ c ∈ s.data, isAsciiAlpha c = true) :
    (⟨r, "", p, s⟩ : CleanRow) ∈ filterSource graw ∧
    ExactlyOneBucket (runPipeline graw braw cutoff) ⟨r, "", p, s⟩ := by
  have hfilter : s.data.filter (fun c => !(isAsciiAlpha c)) = [] := by
    rw [List.filter_eq_nil_iff]
    intro c hc
    rw [halpha c hc]
    simp
  have hclean : clean_invoice_number (some s) = some "" := by
    rw [clean_invoice_number_spec.2 s, hfilter]
  have hmem : (⟨r, "", p, s⟩ : CleanRow) ∈ filterSource graw := by
    rw [filterSource, List.mem_filterMap]
    exact ⟨r, hr, by simp [hp, hs, hclean]⟩
  exact ⟨hmem, bucketPartitionLeft graw braw cutoff _ hmem⟩

/-- Witness for the amended C1 at the concrete record ("27A", "ABC"). -/
theorem alpha_invoice_not_excluded_witness :
    alphaCleanRow ∈ filterSource [alphaRawRow] ∧
    ExactlyOneBucket (runPipeline [alphaRawRow] [] cutoffDefault) alphaCleanRow :=
  alpha_invoice_not_excluded [alphaRawRow] [] cutoffDefault alphaRawRow "27A" "ABC"
    (by decide) rfl rfl (by decide)

/-!
## Column-level model of the NEXT_FY_ITC sheet (C2)

The script builds `next_fy_df` from the `right_only` rows with
`filter(regex="GSTN|InvoiceNumber_original_books|^((?!_clean|_gstn).)*$")`,
moves `gstr1_filing_date` to the last column, and stores it in `result`.
At save time `clean_columns(df, "NEXT_FY_ITC")` is applied.  We model the
column lists through this pipeline; the Python string operations `in`
(`re.search` of a literal), `endswith` and `replace` are embedded below.
-/

/-- Does `pat` occur as a contiguous substring of `s`?  Models both Python
`pat in s` and `re.search` of a literal alternative.  The regex alternative
`^((?!_clean|_gstn).)*$` matches exactly the strings in which neither
literal occurs, so the whole filter regex is a disjunction of substring
tests. -/
def containsSubAux (pat : List Char) : List Char → Bool
  | [] => pat.isEmpty
  | c :: cs => pat.isPrefixOf (c :: cs) || containsSubAux pat cs

def containsSub (s pat : String) : Bool := containsSubAux pat.data s.data

/-- Python `s.endswith(suf)`. -/
def strEndsWith (s suf : String) : Bool := suf.data.isSuffixOf s.data

/-- Python `s.replace(pat, "")` for a non-empty `pat`: scan left to right,
deleting each non-overlapping occurrence of `pat`.  Structural recursion on
a fuel that starts at the string length (each step consumes at least one
character, so the fuel never runs out on the intended calls). -/
def replListFuel (pat : List Char) : Nat → List Char → List Char
  | 0, _ => []
  | _ + 1, [] => []
  | fuel + 1, c :: cs =>
      if pat.isPrefixOf (c :: cs) && !pat.isEmpty then
        replListFuel pat fuel (cs.drop (pat.length - 1))
      else c :: replListFuel pat fuel cs

def pyReplace (s pat : String) : String := ⟨replListFuel pat.data s.data.length s.data⟩

/-- The columns dropped unconditionally by `clean_columns` (lines 69-76). -/
def dropListCols : List String :=
  ["InvoiceNumber_clean", "InvoiceNumber_original_gstn",
   "InvoiceNumber_original_books", "_merge"]

/-- The column-retention logic of `clean_columns` (src/main.py lines 65-94):
per column, drop the helper columns; drop `_books` columns on MATCHED and
strip their suffix elsewhere; drop `_gstn` columns on NEXT_FY_ITC and strip
their suffix elsewhere; drop `gstr1_filing_date` on every sheet except
MATCHED.  (The date-formatting part of `clean_columns` does not change the
column list.) -/
def clean_columns_cols (cols : List String) (sheet : String) : List String :=
  cols.filterMap fun col =>
    if col ∈ dropListCols then none
    else if strEndsWith col "_books" then
      if sheet = "MATCHED" then none else some (pyReplace col "_books")
    else if strEndsWith col "_gstn" then
      if sheet = "NEXT_FY_ITC" then none else some (pyReplace col "_gstn")
    else if col = "gstr1_filing_date" && !(sheet == "MATCHED") then none
    else some col

/-- The join keys of the merge: `on=["GSTN", "InvoiceNumber_clean"]`. -/
def mergeKeys : List String := ["GSTN", "InvoiceNumber_clean"]

/-- Column list of `pd.merge(..., how="outer", indicator=True,
suffixes=("_gstn", "_books"))`: the left frame's columns (suffixed when the
name also occurs on the right and is not a key), then the right frame's
non-key columns (suffixed when shared), then the `_merge` indicator. -/
def mergedColumns (g b : List String) : List String :=
  (g.map fun c => if c ∈ mergeKeys then c else if c ∈ b then c ++ "_gstn" else c)
    ++ ((b.filter fun c => c ∉ mergeKeys).map fun c =>
          if c ∈ g then c ++ "_books" else c)
    ++ ["_merge"]

/-- The filter regex of `next_fy_df` (line 219):
`"GSTN|InvoiceNumber_original_books|^((?!_clean|_gstn).)*$"` — keep a column
iff it contains "GSTN", or contains "InvoiceNumber_original_books", or
contains neither "_clean" nor "_gstn". -/
def nextFyKeep (c : String) : Bool :=
  containsSub c "GSTN" || containsSub c "InvoiceNumber_original_books" ||
    (!(containsSub c "_clean") && !(containsSub c "_gstn"))

/-- Lines 217-225: filter the merged columns, then move `gstr1_filing_date`
to the last position if present. -/
def nextFyCols (mcols : List String) : List String :=
  let kept := mcols.filter nextFyKeep
  if "gstr1_filing_date" ∈ kept then
    (kept.filter fun c => c ≠ "gstr1_filing_date") ++ ["gstr1_filing_date"]
  else kept

/-- The GSTN sheet columns (party id, invoice fields, five taxes, filing
date), as discovered at load time. -/
def gstnSheetCols : List String :=
  ["GSTN", "Invoice Number", "Invoice Date", "Taxable", "CGST", "SGST",
   "IGST", "CESS", "gstr1_filing_date"]

/-- The BOOKS sheet columns: same as GSTN without the filing date. -/
def booksSheetCols : List String :=
  ["GSTN", "Invoice Number", "Invoice Date", "Taxable", "CGST", "SGST",
   "IGST", "CESS"]

/-- Columns after the `assign` of lines 118-136 adds the two derived ones. -/
def preppedCols (sheet : List String) : List String :=
  sheet ++ ["InvoiceNumber_clean", "InvoiceNumber_original"]

/-- C2 evaluated on the standard schemas: the relocation step does put
`gstr1_filing_date` last in the intermediate `next_fy_df`, but
`clean_columns` then drops it from the written NEXT_FY_ITC sheet (its
non-MATCHED branch removes `gstr1_filing_date` unconditionally), so the
final NEXT_FY_ITC table does NOT contain the filing-date column — the
written sheet keeps only the suffix-stripped BOOKS columns. -/
theorem next_fy_filing_date_dropped :
    (nextFyCols (mergedColumns (preppedCols gstnSheetCols)
        (preppedCols booksSheetCols))).getLast? = some "gstr1_filing_date" ∧
    "gstr1_filing_date" ∉ clean_columns_cols
      (nextFyCols (mergedColumns (preppedCols gstnSheetCols)
        (preppedCols booksSheetCols))) "NEXT_FY_ITC" ∧
    clean_columns_cols (nextFyCols (mergedColumns (preppedCols gstnSheetCols)
        (preppedCols booksSheetCols))) "NEXT_FY_ITC" =
      ["GSTN", "Invoice Number", "Invoice Date", "Taxable", "CGST", "SGST",
       "IGST", "CESS"] := by
  decide

/-!
## Column/value model of `add_mismatch_flag` (C4, C10)

`add_mismatch_flag` is column-structure dependent (it tests which suffixed
tax columns exist, adds per-field `_Match` columns, aggregates them into
`MIS_MATCHED` and drops them), so we model a dataframe as a column-name
list plus rows, a row being a total valuation of column names; only the
names in `cols` are part of the visible table.
-/

/-- A pandas cell value: a number, a string, a boolean, or `NaN`. -/
inductive Val
  | num (q : ℚ)
  | str (s : String)
  | bool (b : Bool)
  | null
deriving DecidableEq, Repr

abbrev Row := String → Val

structure DF where
  cols : List String
  rows : List Row

/-- `df[name] = <rowwise value>`: overwrite the column in place if present,
otherwise append it as the last column. -/
def DF.assign (df : DF) (name : String) (f : Row → Val) : DF :=
  { cols := if name ∈ df.cols then df.cols else df.cols ++ [name],
    rows := df.rows.map fun r => fun c => if c = name then f r else r c }

/-- `df.drop(columns=names)`. -/
def DF.dropCols (df : DF) (names : List String) : DF :=
  { cols := df.cols.filter fun c => c ∉ names, rows := df.rows }

/-- The value of row `i` at column `c`. -/
def DF.cell (df : DF) (i : Nat) (c : String) : Option Val :=
  (df.rows[i]?).map fun r => r c

/-- `fillna(0).astype(float)`: missing becomes 0, booleans coerce to 0/1.
(`astype(float)` raises on a non-numeric string in Python, so the tax
comparison theorems assume numeric-or-missing cells via `numOrNull`.) -/
def fillFloat0 : Val → ℚ
  | .num q => q
  | .null => 0
  | .bool b => if b then 1 else 0
  | .str _ => 0

/-- The cell is a number or missing — the domain on which `fillFloat0`
faithfully models `fillna(0).astype(float)`. -/
def numOrNull : Val → Bool
  | .num _ => true
  | .null => true
  | _ => false

/-- pandas truthiness as used by `DataFrame.all(axis=1)` (with the default
`skipna=True`, a missing value is skipped, i.e. counts as true). -/
def truthy : Val → Bool
  | .bool b => b
  | .num q => decide (q ≠ 0)
  | .str s => decide (s ≠ "")
  | .null => true

/-- The five tax fields compared by `add_mismatch_flag` (lines 154-160). -/
def taxColumns : List String := ["Taxable", "CGST", "SGST", "IGST", "CESS"]

/-- The loop of lines 163-170: for each tax field whose `_gstn` and
`_books` columns both exist, add the boolean `_Match` comparison column of
the zero-filled numeric equality (a missing column only prints a warning
and is skipped). -/
def addMatchCols : List String → DF → DF
  | [], d => d
  | t :: ts, d =>
      addMatchCols ts
        (if (t ++ "_gstn") ∈ d.cols ∧ (t ++ "_books") ∈ d.cols then
          d.assign (t ++ "_Match") fun r =>
            .bool (decide (fillFloat0 (r (t ++ "_gstn")) =
              fillFloat0 (r (t ++ "_books"))))
        else d)

/-- `add_mismatch_flag` (src/main.py lines 152-178): add the `_Match`
columns, then — if any column named `<tax>_Match` is present — set
`MIS_MATCHED` to the negated row-wise conjunction of those columns and drop
them; with no match columns the frame is returned unchanged. -/
def add_mismatch_flag (df : DF) : DF :=
  let df1 := addMatchCols taxColumns df
  let matchCols := (taxColumns.map fun t => t ++ "_Match").filter fun c => c ∈ df1.cols
  if matchCols.isEmpty then df1
  else
    (df1.assign "MIS_MATCHED" fun r =>
      .bool (!(matchCols.all fun c => truthy (r c)))).dropCols matchCols

/-! ### String disequalities between the generated column names -/

theorem taxColumns_nodup : taxColumns.Nodup := by decide

theorem tax_match_ne : ∀ t ∈ taxColumns, ∀ s ∈ taxColumns,
    t ≠ s → (t ++ "_Match") ≠ (s ++ "_Match") := by decide

theorem tax_side_ne_match : ∀ t ∈ taxColumns, ∀ s ∈ taxColumns,
    (t ++ "_gstn") ≠ (s ++ "_Match") ∧ (t ++ "_books") ≠ (s ++ "_Match") := by decide

theorem mm_ne_match : ∀ t ∈ taxColumns, "MIS_MATCHED" ≠ (t ++ "_Match") := by decide

/-! ### Basic frame lemmas -/

theorem cell_assign_ne (df : DF) (n : String) (f : Row → Val) (i : Nat)
    (c : String) (h : c ≠ n) : (df.assign n f).cell i c = df.cell i c := by
  simp only [DF.assign, DF.cell, List.getElem?_map]
  cases df.rows[i]? with
  | none => rfl
  | some r => simp [Function.comp, h]

theorem cell_assign_self (df : DF) (n : String) (f : Row → Val) (i : Nat) :
    (df.assign n f).cell i n = (df.rows[i]?).map f := by
  simp only [DF.assign, DF.cell, List.getElem?_map]
  cases df.rows[i]? with
  | none => rfl
  | some r => simp [Function.comp]

theorem cell_dropCols (df : DF) (names : List String) (i : Nat) (c : String) :
    (df.dropCols names).cell i c = df.cell i c := rfl

theorem assign_cols_mem (df : DF) (n : String) (f : Row → Val) (c : String) :
    c ∈ (df.assign n f).cols ↔ c ∈ df.cols ∨ c = n := by
  by_cases h : n ∈ df.cols
  · simp only [DF.assign, if_pos h]
    exact ⟨fun hc => Or.inl hc, fun hc => hc.elim id (fun e => e ▸ h)⟩
  · simp [DF.assign, if_neg h]

theorem assign_rows_len (df : DF) (n : String) (f : Row → Val) :
    (df.assign n f).rows.length = df.rows.length := by
  simp [DF.assign]

theorem addMatchCols_rows_len (ts : List String) (d : DF) :
    (addMatchCols ts d).rows.length = d.rows.length := by
  induction ts generalizing d with
  | nil => rfl
  | cons t ts ih =>
      rw [addMatchCols]
      by_cases h : (t ++ "_gstn") ∈ d.cols ∧ (t ++ "_books") ∈ d.cols
      · rw [if_pos h, ih, assign_rows_len]
      · rw [if_neg h, ih]

theorem addMatchCols_cell_ne (ts : List String) (d : DF) (i : Nat) (c : String)
    (h : ∀ t ∈ ts, c ≠ t ++ "_Match") :
    (addMatchCols ts d).cell i c = d.cell i c := by
  induction ts generalizing d with
  | nil => rfl
  | cons t ts ih =>
      rw [addMatchCols]
      by_cases hc : (t ++ "_gstn") ∈ d.cols ∧ (t ++ "_books") ∈ d.cols
      · rw [if_pos hc, ih _ (fun u hu => h u (List.mem_cons_of_mem t hu)),
          cell_assign_ne _ _ _ _ _ (h t (List.mem_cons_self t ts))]
      · rw [if_neg hc, ih _ (fun u hu => h u (List.mem_cons_of_mem t hu))]

theorem addMatchCols_mem_mono (ts : List String) (d : DF) (c : String)
    (h : c ∈ d.cols) : c ∈ (addMatchCols ts d).cols := by
  induction ts generalizing d with
  | nil => exact h
  | cons t ts ih =>
      rw [addMatchCols]
      by_cases hc : (t ++ "_gstn") ∈ d.cols ∧ (t ++ "_books") ∈ d.cols
      · rw [if_pos hc]
        exact ih _ ((assign_cols_mem _ _ _ _).2 (Or.inl h))
      · rw [if_neg hc]
        exact ih _ h

/-- Does the frame have both suffixed columns of tax field `t`?  (The loop
guard of lines 163-166, as a boolean on the column list.) -/
def bothSides (d : DF) (t : String) : Bool :=
  decide ((t ++ "_gstn") ∈ d.cols) && decide ((t ++ "_books") ∈ d.cols)

theorem bothSides_iff (d : DF) (t : String) :
    bothSides d t = true ↔ ((t ++ "_gstn") ∈ d.cols ∧ (t ++ "_books") ∈ d.cols) := by
  simp [bothSides]

/-- Columns after the `_Match` loop: the original columns followed by the
`_Match` names of the tax fields whose two sides are present (provided no
`_Match` name is already a column). -/
theorem addMatchCols_cols_eq : ∀ (ts : List String) (d : DF),
    (∀ t ∈ ts, t ∈ taxColumns) → ts.Nodup →
    (∀ t ∈ ts, (t ++ "_Match") ∉ d.cols) →
    (addMatchCols ts d).cols =
      d.cols ++ (ts.filter (bothSides d)).map (fun t => t ++ "_Match")
  | [], d, _, _, _ => by simp [addMatchCols]
  | t :: ts, d, hsub, hnd, hM => by
      have hnotin : t ∉ ts := (List.nodup_cons.1 hnd).1
      have hnd' : ts.Nodup := (List.nodup_cons.1 hnd).2
      have hsub' : ∀ u ∈ ts, u ∈ taxColumns :=
        fun u hu => hsub u (List.mem_cons_of_mem t hu)
      by_cases hc : (t ++ "_gstn") ∈ d.cols ∧ (t ++ "_books") ∈ d.cols
      · have hcols' : (d.assign (t ++ "_Match") fun r =>
            Val.bool (decide (fillFloat0 (r (t ++ "_gstn")) =
              fillFloat0 (r (t ++ "_books"))))).cols = d.cols ++ [t ++ "_Match"] := by
          rw [DF.assign, if_neg (hM t (List.mem_cons_self t ts))]
        have hM' : ∀ s ∈ ts, (s ++ "_Match") ∉
            (d.assign (t ++ "_Match") fun r =>
              Val.bool (decide (fillFloat0 (r (t ++ "_gstn")) =
                fillFloat0 (r (t ++ "_books"))))).cols := by
          intro s hs
          rw [hcols', List.mem_append, List.mem_singleton]
          rintro (h1 | h2)
          · exact hM s (List.mem_cons_of_mem t hs) h1
          · exact tax_match_ne s (hsub' s hs) t (hsub t (List.mem_cons_self t ts))
              (fun e => hnotin (e ▸ hs)) h2
        rw [addMatchCols, if_pos hc, addMatchCols_cols_eq ts _ hsub' hnd' hM', hcols']
        have hfc : (ts.filter (bothSides (d.assign (t ++ "_Match") fun r =>
            Val.bool (decide (fillFloat0 (r (t ++ "_gstn")) =
              fillFloat0 (r (t ++ "_books"))))))) = ts.filter (bothSides d) := by
          refine List.filter_congr (fun s hs => ?_)
          have h1 := (tax_side_ne_match s (hsub' s hs) t (hsub t (List.mem_cons_self t ts))).1
          have h2 := (tax_side_ne_match s (hsub' s hs) t (hsub t (List.mem_cons_self t ts))).2
          simp [bothSides, hcols', h1, h2]
        rw [hfc]
        have hpt : bothSides d t = true := (bothSides_iff d t).2 hc
        rw [List.filter_cons_of_pos hpt, List.map_cons]
        simp
      · have hpt : ¬ (bothSides d t = true) := fun h => hc ((bothSides_iff d t).1 h)
        rw [addMatchCols, if_neg hc,
          addMatchCols_cols_eq ts d hsub' hnd'
            (fun s hs => hM s (List.mem_cons_of_mem t hs)),
          List.filter_cons_of_neg hpt]

/-- Value of an added `_Match` column: the zero-filled equality of the two
sides of its tax field, computed from the original row. -/
theorem addMatchCols_cell_match : ∀ (ts : List String) (d : DF) (i : Nat) (t : String),
    t ∈ ts → (∀ u ∈ ts, u ∈ taxColumns) → ts.Nodup →
    ((t ++ "_gstn") ∈ d.cols ∧ (t ++ "_books") ∈ d.cols) →
    (addMatchCols ts d).cell i (t ++ "_Match") =
      (d.rows[i]?).map fun r =>
        Val.bool (decide (fillFloat0 (r (t ++ "_gstn")) =
          fillFloat0 (r (t ++ "_books"))))
  | [], _, _, t, ht, _, _, _ => absurd ht (List.not_mem_nil t)
  | u :: ts, d, i, t, ht, hsub, hnd, hc => by
      have hnd' : ts.Nodup := (List.nodup_cons.1 hnd).2
      have hsub' : ∀ v ∈ ts, v ∈ taxColumns :=
        fun v hv => hsub v (List.mem_cons_of_mem u hv)
      rcases List.mem_cons.1 ht with rfl | hts
      · have hnotin : t ∉ ts := (List.nodup_cons.1 hnd).1
        rw [addMatchCols, if_pos hc,
          addMatchCols_cell_ne ts _ i (t ++ "_Match") (fun s hs =>
            tax_match_ne t (hsub t (List.mem_cons_self t ts)) s (hsub' s hs)
              (fun e => hnotin (e ▸ hs))),
          cell_assign_self]
      · rw [addMatchCols]
        by_cases hcu : (u ++ "_gstn") ∈ d.cols ∧ (u ++ "_books") ∈ d.cols
        · have hc' : (t ++ "_gstn") ∈ (d.assign (u ++ "_Match") fun r =>
              Val.bool (decide (fillFloat0 (r (u ++ "_gstn")) =
                fillFloat0 (r (u ++ "_books"))))).cols ∧
              (t ++ "_books") ∈ (d.assign (u ++ "_Match") fun r =>
              Val.bool (decide (fillFloat0 (r (u ++ "_gstn")) =
                fillFloat0 (r (u ++ "_books"))))).cols :=
            ⟨(assign_cols_mem _ _ _ _).2 (Or.inl hc.1),
             (assign_cols_mem _ _ _ _).2 (Or.inl hc.2)⟩
          rw [if_pos hcu, addMatchCols_cell_match ts _ i t hts hsub' hnd' hc']
          have hne1 := (tax_side_ne_match t (hsub t ht) u
            (hsub u (List.mem_cons_self u ts))).1
          have hne2 := (tax_side_ne_match t (hsub t ht) u
            (hsub u (List.mem_cons_self u ts))).2
          simp only [DF.assign, List.getElem?_map]
          cases d.rows[i]? with
          | none => rfl
          | some r => simp [Function.comp, hne1, hne2]
        · rw [if_neg hcu, addMatchCols_cell_match ts d i t hts hsub' hnd' hc]

/-- With no tax field having both sides present, the loop adds nothing. -/
theorem addMatchCols_id : ∀ (ts : List String) (d : DF),
    (∀ t ∈ ts, ¬((t ++ "_gstn") ∈ d.cols ∧ (t ++ "_books") ∈ d.cols)) →
    addMatchCols ts d = d
  | [], _, _ => rfl
  | t :: ts, d, h => by
      rw [addMatchCols, if_neg (h t (List.mem_cons_self t ts)),
        addMatchCols_id ts d (fun s hs => h s (List.mem_cons_of_mem t hs))]

theorem addMatchCols_mem_match : ∀ (ts : List String) (d : DF) (t : String),
    t ∈ ts → ((t ++ "_gstn") ∈ d.cols ∧ (t ++ "_books") ∈ d.cols) →
    (t ++ "_Match") ∈ (addMatchCols ts d).cols
  | [], _, t, ht, _ => absurd ht (List.not_mem_nil t)
  | u :: ts, d, t, ht, hc => by
      rcases List.mem_cons.1 ht with rfl | hts
      · rw [addMatchCols, if_pos hc]
        exact addMatchCols_mem_mono ts _ _
          ((assign_cols_mem _ _ _ _).2 (Or.inr rfl))
      · rw [addMatchCols]
        by_cases hcu : (u ++ "_gstn") ∈ d.cols ∧ (u ++ "_books") ∈ d.cols
        · rw [if_pos hcu]
          exact addMatchCols_mem_match ts _ t hts
            ⟨(assign_cols_mem _ _ _ _).2 (Or.inl hc.1),
             (assign_cols_mem _ _ _ _).2 (Or.inl hc.2)⟩
        · rw [if_neg hcu]
          exact addMatchCols_mem_match ts d t hts hc

/-- C4: on a matched frame carrying all five suffixed tax columns, and a
row whose tax cells are numeric or missing, the `MIS_MATCHED` flag is
`false` iff all five zero-filled tax values agree exactly between the GSTN
side and the BOOKS side, and `true` iff at least one of the five
comparisons differs. -/
theorem mismatch_flag_iff_equal (df : DF) (i : Nat) (r : Row)
    (hcols : ∀ t ∈ taxColumns, (t ++ "_gstn") ∈ df.cols ∧ (t ++ "_books") ∈ df.cols)
    (hrow : df.rows[i]? = some r)
    (hnum : ∀ t ∈ taxColumns,
      numOrNull (r (t ++ "_gstn")) = true ∧ numOrNull (r (t ++ "_books")) = true) :
    ((add_mismatch_flag df).cell i "MIS_MATCHED" = some (Val.bool false) ↔
      ∀ t ∈ taxColumns,
        fillFloat0 (r (t ++ "_gstn")) = fillFloat0 (r (t ++ "_books"))) ∧
    ((add_mismatch_flag df).cell i "MIS_MATCHED" = some (Val.bool true) ↔
      ∃ t ∈ taxColumns,
        fillFloat0 (r (t ++ "_gstn")) ≠ fillFloat0 (r (t ++ "_books"))) := by
  have hmem : ∀ t ∈ taxColumns, (t ++ "_Match") ∈ (addMatchCols taxColumns df).cols :=
    fun t ht => addMatchCols_mem_match taxColumns df t ht (hcols t ht)
  have hmc : ((taxColumns.map fun t => t ++ "_Match").filter
      fun c => c ∈ (addMatchCols taxColumns df).cols) =
      taxColumns.map fun t => t ++ "_Match" := by
    rw [List.filter_eq_self]
    intro c hc
    rcases List.mem_map.1 hc with ⟨t, ht, rfl⟩
    simpa using hmem t ht
  have hkey : add_mismatch_flag df =
      ((addMatchCols taxColumns df).assign "MIS_MATCHED" fun r' =>
        Val.bool (!((taxColumns.map fun t => t ++ "_Match").all
          fun c => truthy (r' c)))).dropCols
        (taxColumns.map fun t => t ++ "_Match") := by
    simp only [add_mismatch_flag]
    rw [hmc]
    rw [if_neg (by decide : ¬((taxColumns.map fun t => t ++ "_Match").isEmpty = true))]
  have hi : i < df.rows.length := (List.getElem?_eq_some.1 hrow).fst
  have hi1 : i < (addMatchCols taxColumns df).rows.length := by
    rw [addMatchCols_rows_len]
    exact hi
  obtain ⟨r1, hr1⟩ : ∃ r1, (addMatchCols taxColumns df).rows[i]? = some r1 :=
    ⟨(addMatchCols taxColumns df).rows[i], List.getElem?_eq_getElem hi1⟩
  have hval : ∀ t ∈ taxColumns, r1 (t ++ "_Match") =
      Val.bool (decide (fillFloat0 (r (t ++ "_gstn")) =
        fillFloat0 (r (t ++ "_books")))) := by
    intro t ht
    have h1 := addMatchCols_cell_match taxColumns df i t ht (fun u hu => hu)
      taxColumns_nodup (hcols t ht)
    rw [DF.cell, hr1, hrow] at h1
    simpa using h1
  have hcell : (add_mismatch_flag df).cell i "MIS_MATCHED" =
      some (Val.bool (!((taxColumns.map fun t => t ++ "_Match").all
        fun c => truthy (r1 c)))) := by
    rw [hkey, cell_dropCols, cell_assign_self, hr1]
    rfl
  have hB : ((taxColumns.map fun t => t ++ "_Match").all
      fun c => truthy (r1 c)) = true ↔
      ∀ t ∈ taxColumns,
        fillFloat0 (r (t ++ "_gstn")) = fillFloat0 (r (t ++ "_books")) := by
    rw [List.all_eq_true]
    constructor
    · intro h t ht
      have h2 := h (t ++ "_Match") (List.mem_map.2 ⟨t, ht, rfl⟩)
      rw [hval t ht] at h2
      simpa [truthy] using h2
    · intro h c hc
      rcases List.mem_map.1 hc with ⟨t, ht, rfl⟩
      rw [hval t ht]
      simp [truthy, h t ht]
  rw [hcell]
  by_cases hb : ((taxColumns.map fun t => t ++ "_Match").all
      fun c => truthy (r1 c)) = true
  · have hP := hB.1 hb
    rw [hb]
    constructor
    · exact iff_of_true (by rfl) hP
    · refine iff_of_false (by simp) ?_
      rintro ⟨t, ht, hne⟩
      exact hne (hP t ht)
  · have hb' : ((taxColumns.map fun t => t ++ "_Match").all
        fun c => truthy (r1 c)) = false := by
      revert hb
      cases (taxColumns.map fun t => t ++ "_Match").all fun c => truthy (r1 c) <;> simp
    have hnP : ¬ ∀ t ∈ taxColumns,
        fillFloat0 (r (t ++ "_gstn")) = fillFloat0 (r (t ++ "_books")) :=
      fun h => hb (hB.2 h)
    have hE : ∃ t ∈ taxColumns,
        fillFloat0 (r (t ++ "_gstn")) ≠ fillFloat0 (r (t ++ "_books")) := by
      by_contra hne
      push_neg at hne
      exact hnP hne
    rw [hb']
    constructor
    · exact iff_of_false (by simp) hnP
    · exact iff_of_true (by rfl) hE

/-- A matched frame with the full five-tax schema and one row where all
zero-filled tax values agree (Taxable is 100 on both sides, the rest are
missing on both sides). -/
def taxRowEx : Row := fun c =>
  if c = "Taxable_gstn" then Val.num 100
  else if c = "Taxable_books" then Val.num 100
  else Val.null

def taxDFEx : DF :=
  ⟨["Taxable_gstn", "Taxable_books", "CGST_gstn", "CGST_books", "SGST_gstn",
    "SGST_books", "IGST_gstn", "IGST_books", "CESS_gstn", "CESS_books"],
   [taxRowEx]⟩

/-- Witness for C4: on the sample matched row the flag is `false`. -/
theorem mismatch_flag_iff_equal_witness :
    (add_mismatch_flag taxDFEx).cell 0 "MIS_MATCHED" = some (Val.bool false) :=
  ((mismatch_flag_iff_equal taxDFEx 0 taxRowEx (by decide) rfl (by decide)).1).mpr
    (by decide)

/-- An input frame that already carries a column named `Taxable_Match`
(and no suffixed tax columns at all). -/
def matchNameDF : DF := ⟨["Taxable_Match"], []⟩

/-- Counterexample to C10 as stated: on `matchNameDF` the detector swallows
the pre-existing `Taxable_Match` column into the aggregation and drops it,
and adds `MIS_MATCHED` even though no tax field has both sides present. -/
theorem mismatch_frame_cex :
    "Taxable_Match" ∈ matchNameDF.cols ∧
    "Taxable_Match" ∉ (add_mismatch_flag matchNameDF).cols ∧
    "MIS_MATCHED" ∈ (add_mismatch_flag matchNameDF).cols := by
  decide

set_option maxHeartbeats 1600000 in
/-- C10 (amended): provided the input frame has no column named
`<tax>_Match` for any of the five tax fields and none named `MIS_MATCHED`,
the detector adds exactly the `MIS_MATCHED` column (at the end) when some
tax field has both sides present, returns the frame unchanged when none
does, and in all cases preserves every pre-existing column's values and the
row count. -/
theorem mismatch_flag_frame (df : DF)
    (hM : ∀ t ∈ taxColumns, (t ++ "_Match") ∉ df.cols)
    (hMM : "MIS_MATCHED" ∉ df.cols) :
    ((∃ t ∈ taxColumns, (t ++ "_gstn") ∈ df.cols ∧ (t ++ "_books") ∈ df.cols) →
      (add_mismatch_flag df).cols = df.cols ++ ["MIS_MATCHED"]) ∧
    ((∀ t ∈ taxColumns, ¬((t ++ "_gstn") ∈ df.cols ∧ (t ++ "_books") ∈ df.cols)) →
      add_mismatch_flag df = df) ∧
    (∀ c ∈ df.cols, ∀ i, (add_mismatch_flag df).cell i c = df.cell i c) ∧
    (add_mismatch_flag df).rows.length = df.rows.length := by
  have hcols1 : (addMatchCols taxColumns df).cols =
      df.cols ++ (taxColumns.filter (bothSides df)).map (fun t => t ++ "_Match") :=
    addMatchCols_cols_eq taxColumns df (fun t ht => ht) taxColumns_nodup hM
  have hsubnew : ∀ c ∈ (taxColumns.filter (bothSides df)).map (fun t => t ++ "_Match"),
      ∃ t ∈ taxColumns, c = t ++ "_Match" := by
    intro c hc
    rcases List.mem_map.1 hc with ⟨t, ht, rfl⟩
    exact ⟨t, (List.mem_filter.1 ht).1, rfl⟩
  have hmc : ((taxColumns.map fun t => t ++ "_Match").filter
      fun c => c ∈ (addMatchCols taxColumns df).cols) =
      (taxColumns.filter (bothSides df)).map (fun t => t ++ "_Match") := by
    rw [List.filter_map]
    congr 1
    refine List.filter_congr (fun t ht => ?_)
    by_cases hb : bothSides df t = true
    · rw [hb]
      show decide ((t ++ "_Match") ∈ (addMatchCols taxColumns df).cols) = true
      refine decide_eq_true ?_
      rw [hcols1, List.mem_append]
      exact Or.inr (List.mem_map.2 ⟨t, List.mem_filter.2 ⟨ht, hb⟩, rfl⟩)
    · have hb' : bothSides df t = false := by
        revert hb
        cases bothSides df t <;> simp
      rw [hb']
      show decide ((t ++ "_Match") ∈ (addMatchCols taxColumns df).cols) = false
      refine decide_eq_false ?_
      rw [hcols1, List.mem_append]
      rintro (h1 | h2)
      · exact hM t ht h1
      · rcases List.mem_map.1 h2 with ⟨s, hs, he⟩
        have hst : s = t := by
          by_contra hne
          exact tax_match_ne s (List.mem_filter.1 hs).1 t ht hne he
        rw [hst] at hs
        rw [(List.mem_filter.1 hs).2] at hb'
        exact Bool.true_eq_false.mp hb'
  refine ⟨?_, ?_, ?_, ?_⟩
  · rintro ⟨t, ht, hc⟩
    have hmemnew : (t ++ "_Match") ∈
        (taxColumns.filter (bothSides df)).map (fun t => t ++ "_Match") :=
      List.mem_map.2 ⟨t, List.mem_filter.2 ⟨ht, (bothSides_iff df t).2 hc⟩, rfl⟩
    have hne : (taxColumns.filter (bothSides df)).map (fun t => t ++ "_Match") ≠ [] :=
      List.ne_nil_of_mem hmemnew
    have hout : add_mismatch_flag df =
        ((addMatchCols taxColumns df).assign "MIS_MATCHED" fun r' =>
          Val.bool (!(((taxColumns.filter (bothSides df)).map
            (fun t => t ++ "_Match")).all fun c => truthy (r' c)))).dropCols
          ((taxColumns.filter (bothSides df)).map (fun t => t ++ "_Match")) := by
      simp only [add_mismatch_flag]
      rw [hmc, if_neg (fun h => hne (List.isEmpty_iff.1 h))]
    have hMMnotin : "MIS_MATCHED" ∉ (addMatchCols taxColumns df).cols := by
      rw [hcols1, List.mem_append]
      rintro (h1 | h2)
      · exact hMM h1
      · rcases hsubnew _ h2 with ⟨s, hs, he⟩
        exact mm_ne_match s hs he
    have hacols : ((addMatchCols taxColumns df).assign "MIS_MATCHED" fun r' =>
        Val.bool (!(((taxColumns.filter (bothSides df)).map
          (fun t => t ++ "_Match")).all fun c => truthy (r' c)))).cols =
        (df.cols ++ (taxColumns.filter (bothSides df)).map (fun t => t ++ "_Match"))
          ++ ["MIS_MATCHED"] := by
      rw [DF.assign, if_neg hMMnotin, hcols1]
    rw [hout, DF.dropCols, hacols]
    rw [List.filter_append, List.filter_append]
    have e1 : df.cols.filter (fun c => c ∉
        (taxColumns.filter (bothSides df)).map (fun t => t ++ "_Match")) = df.cols := by
      rw [List.filter_eq_self]
      intro c hc
      refine decide_eq_true (fun hin => ?_)
      rcases hsubnew c hin with ⟨s, hs, rfl⟩
      exact hM s hs hc
    have e2 : ((taxColumns.filter (bothSides df)).map
        (fun t => t ++ "_Match")).filter (fun c => c ∉
        (taxColumns.filter (bothSides df)).map (fun t => t ++ "_Match")) = [] := by
      rw [List.filter_eq_nil_iff]
      intro c hc
      simp [hc]
    have e3 : (["MIS_MATCHED"] : List String).filter (fun c => c ∉
        (taxColumns.filter (bothSides df)).map (fun t => t ++ "_Match")) =
        ["MIS_MATCHED"] := by
      rw [List.filter_eq_self]
      intro c hc
      rw [List.mem_singleton.1 hc]
      refine decide_eq_true (fun hin => ?_)
      rcases hsubnew _ hin with ⟨s, hs, he⟩
      exact mm_ne_match s hs he
    rw [e1, e2, e3, List.append_nil]
  · intro hnone
    have hid : addMatchCols taxColumns df = df :=
      addMatchCols_id taxColumns df (fun t ht => hnone t ht)
    have hfe : ((taxColumns.map fun t => t ++ "_Match").filter
        fun c => c ∈ (addMatchCols taxColumns df).cols) = [] := by
      rw [hid, List.filter_eq_nil_iff]
      intro c hc
      rcases List.mem_map.1 hc with ⟨t, ht, rfl⟩
      simpa using hM t ht
    simp only [add_mismatch_flag]
    rw [hfe]
    simp [hid]
  · intro c hc i
    have hcne : ∀ t ∈ taxColumns, c ≠ t ++ "_Match" :=
      fun t ht e => hM t ht (by rw [← e]; exact hc)
    have hbase : (addMatchCols taxColumns df).cell i c = df.cell i c :=
      addMatchCols_cell_ne taxColumns df i c hcne
    by_cases hE : ((taxColumns.map fun t => t ++ "_Match").filter
        fun c => c ∈ (addMatchCols taxColumns df).cols).isEmpty = true
    · simp only [add_mismatch_flag]
      rw [if_pos hE]
      exact hbase
    · simp only [add_mismatch_flag]
      rw [if_neg hE, cell_dropCols,
        cell_assign_ne _ _ _ _ _ (fun e => hMM (by rw [← e]; exact hc))]
      exact hbase
  · by_cases hE : ((taxColumns.map fun t => t ++ "_Match").filter
        fun c => c ∈ (addMatchCols taxColumns df).cols).isEmpty = true
    · simp only [add_mismatch_flag]
      rw [if_pos hE, addMatchCols_rows_len]
    · simp only [add_mismatch_flag]
      rw [if_neg hE, DF.dropCols, assign_rows_len, addMatchCols_rows_len]

/-- A frame with just the two `Taxable` side columns. -/
def pairDFEx : DF := ⟨["Taxable_gstn", "Taxable_books"], []⟩

/-- Witness for the amended C10: on `pairDFEx` the output columns are the
input columns plus `MIS_MATCHED` at the end. -/
theorem mismatch_flag_frame_witness :
    (add_mismatch_flag pairDFEx).cols = pairDFEx.cols ++ ["MIS_MATCHED"] :=
  (mismatch_flag_frame pairDFEx (by decide) (by decide)).1
    ⟨"Taxable", by decide, by decide, by decide⟩

end ITCMatch
